import Mathlib

/-!
Verification of the porkbun dynamic-DNS updater.

This file shallowly embeds the program's data model and the pure logic of
`cmd/porkbun/main.go` (`recordExists`, `dotjoin`, `doDynDNSUpdate`,
`doPrintRecords`), the API client's shared request helper (`doRequest` in
`pkg/porkbun`), and the parts of Go's standard library the update path
depends on (`net.ParseIP` / `netip.ParseAddr` and `IP.To4`).  External
effects (HTTP transport, the remote porkbun API, the system DNS resolver)
are modelled as oracle inputs; where the update decision procedure's
environment evolves between runs (for the idempotence property) the remote
record store and the resolver are modelled from the specification's own
description of those collaborators.
-/

namespace Porkbun

/-- DNS record as returned by the porkbun API (`pkg/api`, struct `Record`).
All fields are strings, exactly as in the source. -/
structure Record where
  id : String
  name : String
  type : String
  content : String
  ttl : String
  prio : String
  notes : String
deriving DecidableEq, Repr

/-- Method `Record.String` from `pkg/api`: `fmt.Sprintf("%s %s %s %s %s (%s)", Name, Type, Content, TTL, Prio, ID)`. -/
def recordString (r : Record) : String :=
  r.name ++ " " ++ r.type ++ " " ++ r.content ++ " " ++ r.ttl ++ " " ++ r.prio ++ " (" ++ r.id ++ ")"

/-- Function `recordExists` from `cmd/porkbun/main.go`: true iff some record has the
given type, name and content (exact string equality). -/
def recordExists (records : List Record) (typ : String) (name : String) (content : String) : Bool :=
  records.any (fun r => r.type == typ && r.name == name && r.content == content)

/-- Function `dotjoin` from `cmd/porkbun/main.go`. -/
def dotjoin (subdom : String) (domain : String) : String :=
  if subdom == "" then domain else subdom ++ "." ++ domain

/-! ## Go IP-address parsing

The write step of `doDynDNSUpdate` validates the current IP with
`ip := net.ParseIP(currentIP); if ip == nil || ip.To4() == nil { fatal }`.
Since Go 1.18, `net.ParseIP` wraps `netip.ParseAddr` and rejects any
address carrying a zone.  The functions below embed `netip`'s
`parseIPv4` and `parseIPv6` and `net.IP.To4`.  Addresses are byte lists
(the 16-byte `As16` form that `net.parseIP` returns). -/

/-- One step of `netip.parseIPv4`'s field loop.  `val` is the octet being
accumulated, `digLen` the number of its digits so far, `fields` the
completed octets.  Rejects leading zeros, octets above 255, empty octets
(leading, trailing or doubled dots) and more than four fields. -/
def parseIPv4Fields : List Char → Nat → Nat → List Nat → Option (List Nat)
  | [], val, digLen, fields =>
    if digLen == 0 then none
    else if fields.length == 3 then some (fields ++ [val])
    else none
  | c :: rest, val, digLen, fields =>
    if c.isDigit then
      if digLen == 1 && val == 0 then none
      else
        let val := val * 10 + (c.toNat - 48)
        if val > 255 then none
        else parseIPv4Fields rest val (digLen + 1) fields
    else if c == '.' then
      if digLen == 0 then none
      else if fields.length == 3 then none
      else parseIPv4Fields rest 0 0 (fields ++ [val])
    else none

/-- Function `netip.parseIPv4` on a character list: the four octets, or `none`. -/
def parseIPv4Chars (s : List Char) : Option (List Nat) :=
  parseIPv4Fields s 0 0 []

/-- Value of a hexadecimal digit, as accepted by `netip.parseIPv6`. -/
def hexDigitVal (c : Char) : Option Nat :=
  if '0' ≤ c ∧ c ≤ '9' then some (c.toNat - 48)
  else if 'a' ≤ c ∧ c ≤ 'f' then some (c.toNat - 87)
  else if 'A' ≤ c ∧ c ≤ 'F' then some (c.toNat - 55)
  else none

/-- The hex-group scan inside `netip.parseIPv6`: consume hex digits,
accumulating `acc` and the digit count `n`; fail when the group value
exceeds `0xFFFF` (Go checks overflow, not digit count). -/
def scanHexGroup : List Char → Nat → Nat → Option (Nat × Nat × List Char)
  | [], acc, n => some (acc, n, [])
  | c :: rest, acc, n =>
    match hexDigitVal c with
    | some v =>
      let acc := acc * 16 + v
      if acc > 65535 then none else scanHexGroup rest acc (n + 1)
    | none => some (acc, n, c :: rest)

/-- The main loop of `netip.parseIPv6`.  `ip` holds the bytes parsed so
far (Go's index `i` is `ip.length`), `ellipsis` the byte position of `::`
if one was seen.  The fuel starts at 8: each iteration appends at least
two bytes and the loop stops at 16.  Returns the bytes and the ellipsis
position; the caller expands the ellipsis. -/
def parseIPv6Loop : Nat → List Char → List Nat → Option Nat → Option (List Nat × Option Nat)
  | 0, s, ip, ellipsis => if s.isEmpty then some (ip, ellipsis) else none
  | fuel + 1, s, ip, ellipsis =>
    if ip.length ≥ 16 then (if s.isEmpty then some (ip, ellipsis) else none)
    else
      match scanHexGroup s 0 0 with
      | none => none
      | some (acc, n, rest) =>
        if n == 0 then none
        else
          match rest with
          | '.' :: _ =>
            -- Trailing embedded IPv4: Go re-parses from the start of the
            -- current group, i.e. from `s`, not from `rest`.
            if ellipsis.isNone && ip.length != 12 then none
            else if ip.length + 4 > 16 then none
            else
              match parseIPv4Chars s with
              | none => none
              | some fields => some (ip ++ fields, ellipsis)
          | [] => some (ip ++ [acc / 256, acc % 256], ellipsis)
          | ':' :: rest2 =>
            let ip := ip ++ [acc / 256, acc % 256]
            match rest2 with
            | [] => none
            | ':' :: rest3 =>
              if ellipsis.isSome then none
              else if rest3.isEmpty then some (ip, some ip.length)
              else parseIPv6Loop fuel rest3 ip (some ip.length)
            | _ => parseIPv6Loop fuel rest2 ip ellipsis
          | _ => none

/-- End of `netip.parseIPv6`: require all input consumed (done in the
loop), then expand `::` to the missing zero bytes; a full 16-byte address
must not contain `::`, a short one must. -/
def finishIPv6 : Option (List Nat × Option Nat) → Option (List Nat)
  | none => none
  | some (ip, ellipsis) =>
    if ip.length < 16 then
      match ellipsis with
      | none => none
      | some e => some (ip.take e ++ List.replicate (16 - ip.length) 0 ++ ip.drop e)
    else
      match ellipsis with
      | none => some ip
      | some _ => none

/-- Function `netip.parseIPv6` on a character list (empty zone rejected by the
caller; a string with a `%` never reaches this function). -/
def parseIPv6Chars (s : List Char) : Option (List Nat) :=
  match s with
  | ':' :: ':' :: [] => some (List.replicate 16 0)
  | ':' :: ':' :: rest => finishIPv6 (parseIPv6Loop 8 rest [] (some 0))
  | _ => finishIPv6 (parseIPv6Loop 8 s [] none)

/-- The dispatch scan of `netip.ParseAddr`: the first of `.`, `:`, `%`
decides how the string is parsed. -/
def firstSpecial : List Char → Option Char
  | [] => none
  | c :: rest => if c == '.' ∨ c == ':' ∨ c == '%' then some c else firstSpecial rest

/-- The 16-byte (`As16`) form of a parsed IPv4 address: the v4-mapped
prefix followed by the four octets. -/
def v4mapped (fields : List Nat) : List Nat :=
  [0, 0, 0, 0, 0, 0, 0, 0, 0, 0, 255, 255] ++ fields

/-- Function `net.ParseIP` (Go ≥ 1.18): dispatch on the first special character;
IPv4 results are returned in 16-byte v4-mapped form (`As16`); any string
containing `%` yields `nil` (either a zone parse error or the non-empty
zone that `net.parseIP` rejects). -/
def goParseIP (s : String) : Option (List Nat) :=
  match firstSpecial s.data with
  | some '.' => (parseIPv4Chars s.data).map v4mapped
  | some ':' => if s.data.contains '%' then none else parseIPv6Chars s.data
  | _ => none

/-- Method `net.IP.To4`: a 4-byte address is returned as is; a 16-byte address
whose first ten bytes are zero and whose next two are `0xff` yields its
last four bytes; anything else is `nil`. -/
def to4 (b : List Nat) : Option (List Nat) :=
  if b.length == 4 then some b
  else if b.length == 16 && (b.take 10).all (fun x => x == 0)
      && b.get? 10 == some 255 && b.get? 11 == some 255 then
    some (b.drop 12)
  else none

/-- The write-step validation in `doDynDNSUpdate`:
`ip := net.ParseIP(currentIP)` must be non-nil with `ip.To4()` non-nil. -/
def goIsValidForWrite (s : String) : Bool :=
  match goParseIP s with
  | none => false
  | some b => (to4 b).isSome

/-- A syntactically valid IPv4 address in the spec's sense: a dotted-quad
string, exactly the strings `netip.parseIPv4` accepts. -/
def isValidIPv4 (s : String) : Bool :=
  (parseIPv4Chars s.data).isSome

/-! ## The update decision procedure

`doDynDNSUpdate` performs external calls (the health-check GET, the
porkbun `ping`, `net.LookupHost`, the porkbun `editByNameType` write).
Their results are supplied as an oracle `DynInput`; the procedure itself
is the pure decision chain of `cmd/porkbun/main.go`, and its observable
effects (which remote calls were made, which writes were issued, how the
run ended) are collected in a `DynTrace`. -/

/-- Oracle for one run of `doDynDNSUpdate`: the flag values and the
results the external calls would return. -/
structure DynInput where
  /-- Flag condition `*ddCheckURL != ""`: a health-check URL is configured. -/
  checkURLSet : Bool
  /-- Creating the check request with `http.NewRequestWithContext` succeeds. -/
  checkRequestOK : Bool
  /-- The GET to the check URL returns a response (any HTTP status). -/
  checkReachable : Bool
  /-- Result of `client.Ping`: `none` on error, else `YourIP`. -/
  pingResult : Option String
  /-- Result of `net.LookupHost` on the fully-qualified name:
  `none` on resolution error, else the returned addresses. -/
  lookupResult : Option (List String)
  /-- The `EditAllA` call, if made, returns without error. -/
  editOK : Bool
  /-- Flag `*ddSubdomain`. -/
  subdomain : String
  /-- Config field `client.Config.Domain`. -/
  domain : String
deriving Repr

/-- One write call issued via `client.EditAllA`: the porkbun
`dns/editByNameType/{domain}/{type}[/{subdomain}]` endpoint with the new
content. -/
structure WriteCall where
  domain : String
  name : String
  typ : String
  content : String
deriving DecidableEq, Repr

/-- How a run of `doDynDNSUpdate` ended (`noop…` are normal returns,
`fatal…` are `log.Fatalf` aborts). -/
inductive DynExit where
  | fatalCheckRequest
  | noopCheckURL
  | fatalPing
  | fatalLookup
  | noopDNSMatch
  | noopRecordExists
  | fatalInvalidIP
  | fatalEditFailed
  | updated
deriving DecidableEq, Repr

/-- Observable effects of one run of `doDynDNSUpdate`. -/
structure DynTrace where
  pingCalled : Bool
  lookupCalled : Bool
  writes : List WriteCall
  exit : DynExit
deriving DecidableEq, Repr

/-- The tail of `doDynDNSUpdate` from the `client.Ping` call on, reached
when no health-check URL is configured or the GET to it failed. -/
def dynDNSAfterCheck (inp : DynInput) (records : List Record) : DynTrace :=
  match inp.pingResult with
  | none => ⟨true, false, [], .fatalPing⟩
  | some currentIP =>
    let fqdn := dotjoin inp.subdomain inp.domain
    match inp.lookupResult with
    | none => ⟨true, true, [], .fatalLookup⟩
    | some addrs =>
      if addrs.any (fun addr => addr == currentIP) then
        ⟨true, true, [], .noopDNSMatch⟩
      else if recordExists records "A" fqdn currentIP then
        ⟨true, true, [], .noopRecordExists⟩
      else if !goIsValidForWrite currentIP then
        ⟨true, true, [], .fatalInvalidIP⟩
      else
        ⟨true, true, [⟨inp.domain, inp.subdomain, "A", currentIP⟩],
          if inp.editOK then .updated else .fatalEditFailed⟩

/-- Function `doDynDNSUpdate` from `cmd/porkbun/main.go`: the linear chain of
short-circuit checks ending in either a no-op, a fatal abort, or one
`EditAllA` write with type `A`, the configured subdomain and domain, and
the current public IP as content. -/
def doDynDNSUpdate (inp : DynInput) (records : List Record) : DynTrace :=
  if inp.checkURLSet then
    if !inp.checkRequestOK then
      ⟨false, false, [], .fatalCheckRequest⟩
    else if inp.checkReachable then
      ⟨false, false, [], .noopCheckURL⟩
    else
      dynDNSAfterCheck inp records
  else
    dynDNSAfterCheck inp records

/-! ## Environment model for the idempotence property

For the two-runs property the environment between the runs must evolve by
exactly the writes the first run issued.  The remote record store and the
local resolver are external collaborators, modelled from the
specification. -/

/-- The external state visible to one run: the host's public IP, the
remote record set, and the reachability oracles, none of which change
between runs except through the procedure's own writes. -/
structure World where
  publicIP : String
  pingOK : Bool
  checkURLSet : Bool
  checkReachable : Bool
  records : List Record
deriving Repr

/-- Modelled from the spec: local DNS resolution of a name returns the
contents of the address records (`A` and `AAAA`) for that name; record
names in the remote store are fully qualified. -/
def resolveAddrs (records : List Record) (name : String) : List String :=
  (records.filter (fun r => r.name == name && (r.type == "A" || r.type == "AAAA"))).map
    (fun r => r.content)

/-- Modelled from the spec: `net.LookupHost` fails exactly when the name
has no address records, and otherwise returns their contents. -/
def lookupHost (records : List Record) (name : String) : Option (List String) :=
  let addrs := resolveAddrs records name
  if addrs.isEmpty then none else some addrs

/-- The `DynInput` a given world presents to one run (the check URL, when
configured, is well formed, and the remote service answers the write). -/
def inputOfWorld (w : World) (sub dom : String) : DynInput :=
  { checkURLSet := w.checkURLSet
    checkRequestOK := true
    checkReachable := w.checkReachable
    pingResult := if w.pingOK then some w.publicIP else none
    lookupResult := lookupHost w.records (dotjoin sub dom)
    editOK := true
    subdomain := sub
    domain := dom }

/-- Modelled from the spec: `editRecordsByNameAndType` overwrites the
content of every record matching the fully-qualified name and the type;
records matching neither are untouched, and no record is created. -/
def applyWrite (records : List Record) (wc : WriteCall) : List Record :=
  records.map (fun r =>
    if r.name == dotjoin wc.name wc.domain && r.type == wc.typ then
      { r with content := wc.content }
    else r)

/-- One process run in `-dyndns` mode: the known-records snapshot is the
freshly retrieved record set when `-print` was also given and empty (Go:
`nil`) otherwise; the run's writes are applied to the remote store. -/
def dynRun (printMode : Bool) (sub dom : String) (w : World) : World × DynTrace :=
  let snapshot := if printMode then w.records else []
  let t := doDynDNSUpdate (inputOfWorld w sub dom) snapshot
  ({ w with records := t.writes.foldl applyWrite w.records }, t)

/-! ## The shared request helper (`doRequest` in `pkg/porkbun`)

JSON marshalling of the fixed request structs and `http.NewRequest` on
the client's well-formed URLs cannot fail, so the oracle covers the three
remaining outcomes: the transport, the HTTP status, and JSON decoding of
the response body. -/

/-- Oracle for one `doRequest` call. -/
structure RequestEnv where
  /-- Call `c.client.Do` returns a response (no transport error). -/
  transportOK : Bool
  /-- The HTTP status code of the response. -/
  status : Nat
  /-- Reading the body with `io.ReadAll` succeeds (read for non-200 statuses). -/
  bodyReadOK : Bool
  /-- The raw response body. -/
  body : String
  /-- The body decodes as JSON into the response type. -/
  decodeOK : Bool
deriving Repr

/-- The errors `doRequest` can return, with the context each carries. -/
inductive ReqError where
  | postFailed
  | badStatusNoBody (status : Nat)
  | badStatus (status : Nat) (body : String)
  | unmarshalFailed
deriving DecidableEq, Repr

/-- Observable outcome of one `doRequest` call: how many POSTs were
performed and the error, if any (`none` = decoded response returned). -/
structure ReqOutcome where
  posts : Nat
  error : Option ReqError
deriving DecidableEq, Repr

/-- Function `doRequest` from `pkg/porkbun`: one POST; transport failure, non-200
status (body included in the error when readable) and JSON decode failure
are errors, anything else returns the decoded response. -/
def doRequest (env : RequestEnv) : ReqOutcome :=
  if !env.transportOK then ⟨1, some .postFailed⟩
  else if env.status != 200 then
    if !env.bodyReadOK then ⟨1, some (.badStatusNoBody env.status)⟩
    else ⟨1, some (.badStatus env.status env.body)⟩
  else if !env.decodeOK then ⟨1, some .unmarshalFailed⟩
  else ⟨1, none⟩

/-! ## Record listing (`doPrintRecords`) -/

/-- Go `strings.ToUpper` restricted to the ASCII range in which DNS type
names live. -/
def goToUpper (s : String) : String :=
  String.mk (s.data.map Char.toUpper)

/-- Go `strings.Split(s, ",")` over the characters: parts between commas,
empty parts kept, one part more than there are commas. -/
def splitCommaAux : List Char → List Char → List String
  | [], acc => [String.mk acc.reverse]
  | c :: rest, acc =>
    if c == ',' then String.mk acc.reverse :: splitCommaAux rest []
    else splitCommaAux rest (c :: acc)

/-- The comma-split of the `-print` flag value (`strings.Split(flag, ",")`). -/
def printParts (flag : String) : List String :=
  splitCommaAux flag.data []

/-- The `includeAll` flag of `doPrintRecords`: some part equals `"all"`. -/
def includeAll (flag : String) : Bool :=
  (printParts flag).any (fun p => p == "all")

/-- The `include` set of `doPrintRecords` applied to a type name: some
part other than `"all"` upper-cases to it. -/
def typeIncluded (flag : String) (t : String) : Bool :=
  (printParts flag).any (fun p => p != "all" && goToUpper p == t)

/-- The per-record print filter: `includeAll || include[r.Type]`. -/
def printPred (flag : String) (r : Record) : Bool :=
  includeAll flag || typeIncluded flag r.type

/-- Observable outcome of `doPrintRecords`: the printed lines, the record
list returned to `main`, and the mutation calls made (none: the function
only calls `RetrieveAll`). -/
structure PrintOutcome where
  lines : List String
  returned : List Record
  editCalls : Nat
  createCalls : Nat
deriving DecidableEq, Repr

/-- Function `doPrintRecords` from `cmd/porkbun/main.go`, given the record set
that `client.RetrieveAll` returned: print one formatted line per record
passing the type filter, and return the full retrieved list. -/
def doPrintRecords (flag : String) (retrieved : List Record) : PrintOutcome :=
  { lines := (retrieved.filter (printPred flag)).map recordString
    returned := retrieved
    editCalls := 0
    createCalls := 0 }

/-! ## Helper lemmas -/

/-- Predicate `recordExists` is the existence of an exactly matching record. -/
theorem recordExists_eq_true_iff (records : List Record) (typ name content : String) :
    recordExists records typ name content = true ↔
      ∃ r ∈ records, r.type = typ ∧ r.name = name ∧ r.content = content := by
  simp [recordExists, List.any_eq_true, and_assoc]

/-- Predicate `recordExists` is `false` exactly when no record matches. -/
theorem recordExists_eq_false_iff (records : List Record) (typ name content : String) :
    recordExists records typ name content = false ↔
      ∀ r ∈ records, ¬(r.type = typ ∧ r.name = name ∧ r.content = content) := by
  rw [← Bool.not_eq_true, recordExists_eq_true_iff]
  push_neg
  simp

/-- When the health check does not short-circuit (no URL configured, or
the GET was attempted and failed), `doDynDNSUpdate` continues with the
post-check chain. -/
theorem doDynDNSUpdate_eq_afterCheck (inp : DynInput) (records : List Record)
    (h : inp.checkURLSet = false ∨ (inp.checkRequestOK = true ∧ inp.checkReachable = false)) :
    doDynDNSUpdate inp records = dynDNSAfterCheck inp records := by
  rcases h with h | ⟨h1, h2⟩
  · simp [doDynDNSUpdate, h]
  · simp [doDynDNSUpdate, h1, h2]

/-- A successful dotted-quad parse always yields exactly four octets. -/
theorem parseIPv4Fields_length :
    ∀ (cs : List Char) (v d : Nat) (fs r : List Nat),
      parseIPv4Fields cs v d fs = some r → r.length = 4 := by
  intro cs
  induction cs with
  | nil =>
    intro v d fs r h
    simp only [parseIPv4Fields] at h
    split_ifs at h <;> simp_all
    rw [← h, List.length_append, ‹fs.length = 3›]
    simp
  | cons c rest ih =>
    intro v d fs r h
    simp only [parseIPv4Fields] at h
    split_ifs at h <;> first | exact ih _ _ _ _ h | simp_all

/-- On input accepted by the dotted-quad parser, the `netip.ParseAddr`
dispatch scan finds a `.` first (or, when three octets were already
accumulated, possibly no special character at all). -/
theorem parseIPv4Fields_firstSpecial :
    ∀ (cs : List Char) (v d : Nat) (fs r : List Nat),
      parseIPv4Fields cs v d fs = some r →
      firstSpecial cs = some '.' ∨ (firstSpecial cs = none ∧ fs.length = 3) := by
  intro cs
  induction cs with
  | nil =>
    intro v d fs r h
    simp only [parseIPv4Fields] at h
    split_ifs at h <;> simp_all [firstSpecial]
  | cons c rest ih =>
    intro v d fs r h
    simp only [parseIPv4Fields] at h
    split_ifs at h
    · -- digit step: `c` is not a special character, the scan continues
      rename_i hdig hz hov
      have hne : ¬((c == '.') = true ∨ (c == ':') = true ∨ (c == '%') = true) := by
        simp only [beq_iff_eq]
        rintro (rfl | rfl | rfl) <;> exact absurd hdig (by decide)
      have hfs : firstSpecial (c :: rest) = firstSpecial rest := by
        simp only [firstSpecial]
        rw [if_neg hne]
      rcases ih _ _ _ _ h with h1 | ⟨h2, h3⟩
      · exact Or.inl (hfs ▸ h1)
      · exact Or.inr ⟨hfs ▸ h2, h3⟩
    · -- dot step
      rename_i hndig hdot hd0 hlen
      obtain rfl : c = '.' := by simpa using hdot
      exact Or.inl (by simp [firstSpecial])

/-- A list of four elements is a four-element literal. -/
theorem length_four_exists {α : Type} (f : List α) (h : f.length = 4) :
    ∃ a b c d, f = [a, b, c, d] := by
  rcases f with _ | ⟨a, _ | ⟨b, _ | ⟨c, _ | ⟨d, _ | _⟩⟩⟩⟩ <;> simp_all

/-- Go `To4` succeeds on the v4-mapped form of four octets. -/
theorem to4_v4mapped (a b c d : Nat) : to4 (v4mapped [a, b, c, d]) = some [a, b, c, d] := rfl

/-- Every syntactically valid dotted-quad IPv4 string passes the write
step's Go validation (`net.ParseIP` non-nil with `To4` non-nil). -/
theorem isValidIPv4_goIsValidForWrite (s : String) (h : isValidIPv4 s = true) :
    goIsValidForWrite s = true := by
  obtain ⟨f, hf⟩ : ∃ f, parseIPv4Chars s.data = some f := by
    cases hp : parseIPv4Chars s.data with
    | none => simp [isValidIPv4, hp] at h
    | some f => exact ⟨f, rfl⟩
  have hfs : firstSpecial s.data = some '.' := by
    rcases parseIPv4Fields_firstSpecial s.data 0 0 [] f hf with h1 | ⟨_, hlen⟩
    · exact h1
    · simp at hlen
  have hlen : f.length = 4 := parseIPv4Fields_length s.data 0 0 [] f hf
  obtain ⟨a, b, c, d, rfl⟩ := length_four_exists f hlen
  simp [goIsValidForWrite, goParseIP, hfs, parseIPv4Chars] at *
  simp [goIsValidForWrite, goParseIP, hfs, parseIPv4Chars, hf, to4_v4mapped]

/-! ## The claims -/

/-- C3: for every list of records and every candidate triple,
`recordExists` returns `true` iff some record matches the type, name and
content under exact string equality; in particular it is `false` on the
empty list. -/
theorem recordExists_iff_exact_match (R : List Record) (typ name content : String) :
    (recordExists R typ name content = true ↔
      ∃ r ∈ R, r.type = typ ∧ r.name = name ∧ r.content = content) ∧
    recordExists [] typ name content = false := by
  refine ⟨recordExists_eq_true_iff R typ name content, ?_⟩
  simp [recordExists]

/-- Witness for C3 at a concrete record list: the matching record is
found, obtained from the claim theorem itself. -/
theorem recordExists_iff_exact_match_witness :
    recordExists [⟨"42", "www.example.com", "A", "1.2.3.4", "600", "0", ""⟩]
      "A" "www.example.com" "1.2.3.4" = true :=
  (recordExists_iff_exact_match _ "A" "www.example.com" "1.2.3.4").1.mpr
    ⟨⟨"42", "www.example.com", "A", "1.2.3.4", "600", "0", ""⟩, by simp, rfl, rfl, rfl⟩

/-- C8: joining an empty subdomain with a domain yields the domain, and a
non-empty subdomain is prefixed with a dot; in particular on the spec's
two examples. -/
theorem dotjoin_spec (d : String) :
    dotjoin "" d = d ∧
    (∀ s : String, s ≠ "" → dotjoin s d = s ++ "." ++ d) ∧
    dotjoin "" "example.com" = "example.com" ∧
    dotjoin "www" "example.com" = "www.example.com" := by
  refine ⟨rfl, fun s hs => ?_, rfl, rfl⟩
  simp [dotjoin, hs]

/-- Witness for C8 at the spec's concrete example. -/
theorem dotjoin_spec_witness : dotjoin "www" "example.com" = "www.example.com" :=
  (dotjoin_spec "example.com").2.1 "www" (by decide)

/-- C4: whenever a health-check URL is configured and the GET to it
returns a response with any HTTP status, the run calls neither ping nor
the local resolver, issues no write, and exits as a no-op at the URL
check. -/
theorem checkurl_short_circuit_no_calls (inp : DynInput) (recs : List Record)
    (hset : inp.checkURLSet = true) (hreq : inp.checkRequestOK = true)
    (hreach : inp.checkReachable = true) :
    (doDynDNSUpdate inp recs).pingCalled = false ∧
    (doDynDNSUpdate inp recs).lookupCalled = false ∧
    (doDynDNSUpdate inp recs).writes = [] ∧
    (doDynDNSUpdate inp recs).exit = DynExit.noopCheckURL := by
  simp [doDynDNSUpdate, hset, hreq, hreach]

/-- Witness for C4 at a concrete input. -/
theorem checkurl_short_circuit_no_calls_witness :
    (doDynDNSUpdate ⟨true, true, true, some "1.2.3.4", some ["5.6.7.8"], true, "www", "example.com"⟩
      []).writes = [] :=
  (checkurl_short_circuit_no_calls
    ⟨true, true, true, some "1.2.3.4", some ["5.6.7.8"], true, "www", "example.com"⟩
    [] rfl rfl rfl).2.2.1

/-- C5: when the health check is unreachable or not configured, ping
succeeds, and local resolution returns an address equal to the current
public IP, the run exits no-op at the DNS comparison with zero writes. -/
theorem dns_match_no_write (inp : DynInput) (recs : List Record)
    (ip : String) (addrs : List String)
    (hcheck : inp.checkURLSet = false ∨ (inp.checkRequestOK = true ∧ inp.checkReachable = false))
    (hping : inp.pingResult = some ip)
    (hlookup : inp.lookupResult = some addrs)
    (hmem : ip ∈ addrs) :
    (doDynDNSUpdate inp recs).writes = [] ∧
    (doDynDNSUpdate inp recs).exit = DynExit.noopDNSMatch := by
  rw [doDynDNSUpdate_eq_afterCheck inp recs hcheck]
  have hany : addrs.any (fun addr => addr == ip) = true := by
    simp only [List.any_eq_true, beq_iff_eq]
    exact ⟨ip, hmem, rfl⟩
  simp [dynDNSAfterCheck, hping, hlookup, hany]

/-- Witness for C5 at a concrete input. -/
theorem dns_match_no_write_witness :
    (doDynDNSUpdate ⟨false, true, false, some "1.2.3.4", some ["1.2.3.4"], true, "www", "example.com"⟩
      []).writes = [] :=
  (dns_match_no_write
    ⟨false, true, false, some "1.2.3.4", some ["1.2.3.4"], true, "www", "example.com"⟩
    [] "1.2.3.4" ["1.2.3.4"] (Or.inl rfl) rfl rfl (by simp)).1

/-- If the post-check chain issued a write, then ping and resolution
succeeded, no resolved address equals the current IP, and the one write
carries the configured domain, subdomain, type `A` and the current IP. -/
theorem dynDNSAfterCheck_writes_nonempty (inp : DynInput) (recs : List Record)
    (h : (dynDNSAfterCheck inp recs).writes ≠ []) :
    ∃ ip addrs, inp.pingResult = some ip ∧ inp.lookupResult = some addrs ∧
      (addrs.any fun addr => addr == ip) = false ∧
      (dynDNSAfterCheck inp recs).writes = [⟨inp.domain, inp.subdomain, "A", ip⟩] := by
  cases hping : inp.pingResult with
  | none => exact absurd (by simp [dynDNSAfterCheck, hping]) h
  | some ip =>
    cases hlook : inp.lookupResult with
    | none => exact absurd (by simp [dynDNSAfterCheck, hping, hlook]) h
    | some addrs =>
      by_cases h1 : (addrs.any fun addr => addr == ip) = true
      · exact absurd (by simp [dynDNSAfterCheck, hping, hlook, h1]) h
      · refine ⟨ip, addrs, rfl, rfl, Bool.eq_false_iff.mpr h1, ?_⟩
        by_cases h2 : recordExists recs "A" (dotjoin inp.subdomain inp.domain) ip = true
        · exact absurd (by simp [dynDNSAfterCheck, hping, hlook, h1, h2]) h
        · by_cases h3 : goIsValidForWrite ip = true
          · simp [dynDNSAfterCheck, hping, hlook, h1, h2, h3]
          · exact absurd
              (by simp [dynDNSAfterCheck, hping, hlook, h1, h2, Bool.eq_false_iff.mpr h3]) h

/-- If a run of `doDynDNSUpdate` issued a write, the health check did not
short-circuit and the post-check conditions of
`dynDNSAfterCheck_writes_nonempty` hold. -/
theorem doDynDNSUpdate_writes_nonempty (inp : DynInput) (recs : List Record)
    (h : (doDynDNSUpdate inp recs).writes ≠ []) :
    (inp.checkURLSet = true → inp.checkRequestOK = true ∧ inp.checkReachable = false) ∧
    ∃ ip addrs, inp.pingResult = some ip ∧ inp.lookupResult = some addrs ∧
      (addrs.any fun addr => addr == ip) = false ∧
      (doDynDNSUpdate inp recs).writes = [⟨inp.domain, inp.subdomain, "A", ip⟩] := by
  by_cases hcs : inp.checkURLSet = true
  · by_cases hreq : inp.checkRequestOK = true
    · by_cases hreach : inp.checkReachable = true
      · exact absurd (by simp [doDynDNSUpdate, hcs, hreq, hreach]) h
      · have hreach2 : inp.checkReachable = false := by simpa using hreach
        have hred := doDynDNSUpdate_eq_afterCheck inp recs (Or.inr ⟨hreq, hreach2⟩)
        rw [hred] at h ⊢
        exact ⟨fun _ => ⟨hreq, hreach2⟩, dynDNSAfterCheck_writes_nonempty inp recs h⟩
    · exact absurd (by simp [doDynDNSUpdate, hcs, Bool.eq_false_iff.mpr hreq]) h
  · have hcs2 : inp.checkURLSet = false := by simpa using hcs
    have hred := doDynDNSUpdate_eq_afterCheck inp recs (Or.inl hcs2)
    rw [hred] at h ⊢
    exact ⟨fun hc => absurd hc hcs, dynDNSAfterCheck_writes_nonempty inp recs h⟩

/-- C2 counterexample world: the target name carries only an AAAA record,
so resolution succeeds with an address differing from the public IPv4
address, while the first run's write has no A record to overwrite. -/
def aaaaOnlyWorld : World :=
  ⟨"1.2.3.4", true, false, false,
    [⟨"7", "www.example.com", "AAAA", "2001:db8::1", "600", "0", ""⟩]⟩

/-- C2 counterexample: with no external state change between two
successive runs, the second run still issues a write.  The first run's
`editByNameType` call found no A record to overwrite, so the second run
sees the identical environment and neither the DNS comparison nor the
known-records check exits no-op. -/
theorem dyndns_second_run_writes_again :
    ((dynRun false "www" "example.com"
        (dynRun false "www" "example.com" aaaaOnlyWorld).1).2).writes
      = [⟨"example.com", "www", "A", "1.2.3.4"⟩] := by
  decide

/-- C2 amended: provided the record set holds an A record whose name is
the fully-qualified target name (which step 3 of the procedure already
requires the operator to have set up), running the procedure twice with
no external state change performs zero writes on the second run, and
whenever the first run wrote, the second exits no-op at the local DNS
comparison. -/
theorem dyndns_idempotent_with_a_record (printMode : Bool) (sub dom : String) (w : World)
    (hA : ∃ r ∈ w.records, r.type = "A" ∧ r.name = dotjoin sub dom) :
    ((dynRun printMode sub dom (dynRun printMode sub dom w).1).2).writes = [] ∧
    ((dynRun printMode sub dom w).2.writes ≠ [] →
      ((dynRun printMode sub dom (dynRun printMode sub dom w).1).2).exit
        = DynExit.noopDNSMatch) := by
  by_cases hw : ((dynRun printMode sub dom w).2).writes = []
  · -- the first run did not write, so the worlds and hence the runs agree
    have hw1 : (dynRun printMode sub dom w).1 = w := by
      show { w with
        records := ((dynRun printMode sub dom w).2).writes.foldl applyWrite w.records } = w
      rw [hw]
      rfl
    refine ⟨?_, fun hne => absurd hw hne⟩
    rw [hw1]
    exact hw
  · -- the first run wrote, so its A record now carries the public IP
    obtain ⟨hcheckimp, ip, addrs, hping, hlook, hany, hwr⟩ :=
      doDynDNSUpdate_writes_nonempty (inputOfWorld w sub dom)
        (if printMode then w.records else []) hw
    have hpingOK : w.pingOK = true := by
      by_cases hp : w.pingOK = true
      · exact hp
      · exfalso
        have hnone : (inputOfWorld w sub dom).pingResult = none := by
          simp [inputOfWorld, Bool.eq_false_iff.mpr hp]
        rw [hnone] at hping
        exact Option.noConfusion hping
    have hip : ip = w.publicIP := by
      have hsome : (inputOfWorld w sub dom).pingResult = some w.publicIP := by
        simp [inputOfWorld, hpingOK]
      rw [hsome] at hping
      exact (Option.some.inj hping).symm
    set w1 := (dynRun printMode sub dom w).1 with hw1def
    have hrecs1 : w1.records = applyWrite w.records ⟨dom, sub, "A", ip⟩ := by
      show List.foldl applyWrite w.records
        (doDynDNSUpdate (inputOfWorld w sub dom)
          (if printMode = true then w.records else [])).writes = _
      rw [hwr]
      rfl
    obtain ⟨r0, hr0mem, hr0A, hr0name⟩ := hA
    have hmem1 : ({ r0 with content := ip } : Record) ∈ w1.records := by
      rw [hrecs1]
      simp only [applyWrite]
      refine List.mem_map.mpr ⟨r0, hr0mem, ?_⟩
      simp [hr0name, hr0A]
    have hipmem : ip ∈ resolveAddrs w1.records (dotjoin sub dom) := by
      simp only [resolveAddrs]
      refine List.mem_map.mpr ⟨{ r0 with content := ip }, ?_, rfl⟩
      refine List.mem_filter.mpr ⟨hmem1, ?_⟩
      simp [hr0name, hr0A]
    have hne2 : resolveAddrs w1.records (dotjoin sub dom) ≠ [] :=
      List.ne_nil_of_mem hipmem
    have hempty2 : (resolveAddrs w1.records (dotjoin sub dom)).isEmpty = false := by
      cases hres : resolveAddrs w1.records (dotjoin sub dom) with
      | nil => exact absurd hres hne2
      | cons a l => rfl
    have hlook2 : (inputOfWorld w1 sub dom).lookupResult =
        some (resolveAddrs w1.records (dotjoin sub dom)) := by
      simp [inputOfWorld, lookupHost, hempty2]
    have hany2 : ((resolveAddrs w1.records (dotjoin sub dom)).any
        fun addr => addr == ip) = true :=
      List.any_eq_true.mpr ⟨ip, hipmem, by simp⟩
    have hping2 : (inputOfWorld w1 sub dom).pingResult = some ip := by
      have h1 : w1.pingOK = true := hpingOK
      have h2 : w1.publicIP = ip := hip.symm
      simp [inputOfWorld, h1, h2]
    have hcheck2 : (inputOfWorld w1 sub dom).checkURLSet = false ∨
        ((inputOfWorld w1 sub dom).checkRequestOK = true ∧
          (inputOfWorld w1 sub dom).checkReachable = false) := by
      by_cases hcs : w.checkURLSet = true
      · exact Or.inr ⟨rfl, (hcheckimp hcs).2⟩
      · exact Or.inl (by simpa using hcs)
    have hrun2 : (dynRun printMode sub dom w1).2 =
        dynDNSAfterCheck (inputOfWorld w1 sub dom) (if printMode then w1.records else []) := by
      show doDynDNSUpdate (inputOfWorld w1 sub dom) (if printMode then w1.records else []) = _
      exact doDynDNSUpdate_eq_afterCheck _ _ hcheck2
    have hfinal : dynDNSAfterCheck (inputOfWorld w1 sub dom)
        (if printMode then w1.records else [])
        = ⟨true, true, [], DynExit.noopDNSMatch⟩ := by
      simp [dynDNSAfterCheck, hping2, hlook2, hany2]
    refine ⟨?_, fun _ => ?_⟩
    · rw [hrun2, hfinal]
    · rw [hrun2, hfinal]

/-- World for the C2 witness: an ordinary A record with a stale address. -/
def staleARecordWorld : World :=
  ⟨"1.2.3.4", true, false, false,
    [⟨"2", "www.example.com", "A", "5.6.7.8", "600", "0", ""⟩]⟩

/-- Witness for C2 amended: the first run rewrites the stale A record and
the second run performs zero writes. -/
theorem dyndns_idempotent_with_a_record_witness :
    ((dynRun false "www" "example.com"
        (dynRun false "www" "example.com" staleARecordWorld).1).2).writes = [] :=
  (dyndns_idempotent_with_a_record false "www" "example.com" staleARecordWorld
    ⟨⟨"2", "www.example.com", "A", "5.6.7.8", "600", "0", ""⟩,
      by simp [staleARecordWorld], rfl, by decide⟩).1

/-- C1: when the health check fails or is not configured, ping succeeds,
local resolution succeeds with no address equal to the current public IP,
the snapshot holds no matching A record, and the current IP is a valid
IPv4 address, the run issues exactly one write: `editByNameType` with
type `A`, the configured subdomain and domain, and the current IP as
content. -/
theorem dyndns_writes_exactly_once (inp : DynInput) (recs : List Record)
    (ip : String) (addrs : List String)
    (hcheck : inp.checkURLSet = false ∨ (inp.checkRequestOK = true ∧ inp.checkReachable = false))
    (hping : inp.pingResult = some ip)
    (hlookup : inp.lookupResult = some addrs)
    (hnomatch : ∀ a ∈ addrs, a ≠ ip)
    (hnorec : ∀ r ∈ recs,
      ¬(r.type = "A" ∧ r.name = dotjoin inp.subdomain inp.domain ∧ r.content = ip))
    (hvalid : isValidIPv4 ip = true) :
    (doDynDNSUpdate inp recs).writes = [⟨inp.domain, inp.subdomain, "A", ip⟩] := by
  rw [doDynDNSUpdate_eq_afterCheck inp recs hcheck]
  have hany : addrs.any (fun addr => addr == ip) = false := by
    simp only [List.any_eq_false, beq_iff_eq]
    exact hnomatch
  have hrec : recordExists recs "A" (dotjoin inp.subdomain inp.domain) ip = false :=
    (recordExists_eq_false_iff recs "A" (dotjoin inp.subdomain inp.domain) ip).mpr hnorec
  have hgo : goIsValidForWrite ip = true := isValidIPv4_goIsValidForWrite ip hvalid
  simp [dynDNSAfterCheck, hping, hlookup, hany, hrec, hgo]

/-- Witness for C1 at a concrete input: exactly one write with the
configured triple. -/
theorem dyndns_writes_exactly_once_witness :
    (doDynDNSUpdate ⟨false, true, false, some "1.2.3.4", some ["5.6.7.8"], true, "www", "example.com"⟩
      []).writes = [⟨"example.com", "www", "A", "1.2.3.4"⟩] :=
  dyndns_writes_exactly_once
    ⟨false, true, false, some "1.2.3.4", some ["5.6.7.8"], true, "www", "example.com"⟩
    [] "1.2.3.4" ["5.6.7.8"] (Or.inl rfl) rfl rfl (by decide) (by simp) (by decide)

/-- Input for the C6 counterexample: the ping answer is the IPv4-mapped
IPv6 literal `::ffff:1.2.3.4`, the health check is not configured, local
resolution returns a different address, and the snapshot is empty. -/
def v4mappedInput : DynInput :=
  ⟨false, true, false, some "::ffff:1.2.3.4", some ["1.2.3.4"], true, "www", "example.com"⟩

/-- C6 counterexample: `::ffff:1.2.3.4` is an IPv6 literal, not a
syntactically valid IPv4 address, yet the run reaches the write step and
issues the write with it as content: Go's `To4` is non-nil on the
IPv4-mapped form, so the validation passes instead of aborting. -/
theorem v4mapped_literal_written_despite_invalid_ipv4 :
    isValidIPv4 "::ffff:1.2.3.4" = false ∧
    (doDynDNSUpdate v4mappedInput []).writes =
      [⟨"example.com", "www", "A", "::ffff:1.2.3.4"⟩] :=
  ⟨rfl, rfl⟩

/-- C6 amended: whenever the current public IP fails the write step's
validation (`net.ParseIP` nil or `To4` nil) — in particular for
`300.1.1.1` and for plain IPv6 literals such as `2001:db8::1` — the run
issues no write at all; and every run that reaches the write step (the
health check did not short-circuit, ping and resolution succeeded, no
resolved address matched, no matching snapshot record) aborts fatally at
the IP validation.  IPv4-mapped IPv6 literals such as `::ffff:1.2.3.4`,
however, pass the validation and are written. -/
theorem invalid_ip_aborts_before_write (inp : DynInput) (recs : List Record) (ip : String)
    (hping : inp.pingResult = some ip)
    (hinvalid : goIsValidForWrite ip = false) :
    (doDynDNSUpdate inp recs).writes = [] ∧
    (∀ addrs : List String,
      (inp.checkURLSet = false ∨ (inp.checkRequestOK = true ∧ inp.checkReachable = false)) →
      inp.lookupResult = some addrs →
      (∀ a ∈ addrs, a ≠ ip) →
      recordExists recs "A" (dotjoin inp.subdomain inp.domain) ip = false →
      (doDynDNSUpdate inp recs).exit = DynExit.fatalInvalidIP) := by
  constructor
  · have hafter : (dynDNSAfterCheck inp recs).writes = [] := by
      simp only [dynDNSAfterCheck, hping]
      cases inp.lookupResult with
      | none => rfl
      | some addrs =>
        by_cases h1 : addrs.any (fun addr => addr == ip) = true
        · simp [h1]
        · by_cases h2 : recordExists recs "A" (dotjoin inp.subdomain inp.domain) ip = true
          · simp [h1, h2]
          · simp [h1, h2, hinvalid]
    unfold doDynDNSUpdate
    split_ifs <;> simp_all
  · intro addrs hcheck hlookup hnomatch hrec
    rw [doDynDNSUpdate_eq_afterCheck inp recs hcheck]
    have hany : addrs.any (fun addr => addr == ip) = false := by
      simp only [List.any_eq_false, beq_iff_eq]
      exact hnomatch
    simp [dynDNSAfterCheck, hping, hlookup, hany, hrec, hinvalid]

/-- Witness for C6 amended: `300.1.1.1` is rejected — the run writes
nothing and exits with the fatal IP-validation abort; `2001:db8::1`
likewise writes nothing. -/
theorem invalid_ip_aborts_before_write_witness :
    (doDynDNSUpdate ⟨false, true, false, some "300.1.1.1", some ["1.2.3.4"], true, "www", "example.com"⟩
      []).writes = [] ∧
    (doDynDNSUpdate ⟨false, true, false, some "300.1.1.1", some ["1.2.3.4"], true, "www", "example.com"⟩
      []).exit = DynExit.fatalInvalidIP ∧
    (doDynDNSUpdate ⟨false, true, false, some "2001:db8::1", some ["1.2.3.4"], true, "www", "example.com"⟩
      []).writes = [] :=
  ⟨(invalid_ip_aborts_before_write
      ⟨false, true, false, some "300.1.1.1", some ["1.2.3.4"], true, "www", "example.com"⟩
      [] "300.1.1.1" rfl rfl).1,
    (invalid_ip_aborts_before_write
      ⟨false, true, false, some "300.1.1.1", some ["1.2.3.4"], true, "www", "example.com"⟩
      [] "300.1.1.1" rfl rfl).2 ["1.2.3.4"] (Or.inl rfl) rfl (by decide) rfl,
    (invalid_ip_aborts_before_write
      ⟨false, true, false, some "2001:db8::1", some ["1.2.3.4"], true, "www", "example.com"⟩
      [] "2001:db8::1" rfl rfl).1⟩

/-- C7: the shared request helper errors exactly when the transport
fails, the status is not 200, or the body does not decode; a non-200
error with a readable body carries the raw body; and at most one POST is
performed. -/
theorem doRequest_error_conditions (env : RequestEnv) :
    ((doRequest env).error ≠ none ↔
      (env.transportOK = false ∨ env.status ≠ 200 ∨ env.decodeOK = false)) ∧
    (env.transportOK = true → env.status ≠ 200 → env.bodyReadOK = true →
      (doRequest env).error = some (ReqError.badStatus env.status env.body)) ∧
    (doRequest env).posts ≤ 1 := by
  rcases env with ⟨t, st, br, b, d⟩
  cases t <;> cases br <;> cases d <;> by_cases h : st = 200 <;> simp [doRequest, h]

/-- Witness for C7: a 404 with readable body yields the body-carrying
error, via the claim theorem. -/
theorem doRequest_error_conditions_witness :
    (doRequest ⟨true, 404, true, "not found", true⟩).error =
      some (ReqError.badStatus 404 "not found") :=
  (doRequest_error_conditions ⟨true, 404, true, "not found", true⟩).2.1 rfl (by decide) rfl

/-- C9: the record-listing mode prints one line per record whose type is
in the caller-supplied set (every upper-cased part of the comma-separated
flag other than `all`), or one line per record when `all` is supplied,
each formatted `name type content ttl priority (id)`, and performs no
creation or edit call. -/
theorem doPrintRecords_lines_spec (flag : String) (R : List Record) :
    (doPrintRecords flag R).lines =
      (R.filter (fun r => decide (("all" ∈ printParts flag) ∨
        ∃ p ∈ printParts flag, p ≠ "all" ∧ goToUpper p = r.type))).map
        (fun r => r.name ++ " " ++ r.type ++ " " ++ r.content ++ " " ++ r.ttl
          ++ " " ++ r.prio ++ " (" ++ r.id ++ ")") ∧
    ("all" ∈ printParts flag → (doPrintRecords flag R).lines = R.map recordString) ∧
    (doPrintRecords flag R).editCalls = 0 ∧
    (doPrintRecords flag R).createCalls = 0 := by
  have hpred : ∀ r : Record,
      printPred flag r = decide (("all" ∈ printParts flag) ∨
        ∃ p ∈ printParts flag, p ≠ "all" ∧ goToUpper p = r.type) := by
    intro r
    rw [Bool.eq_iff_iff]
    simp [printPred, includeAll, typeIncluded, List.any_eq_true]
  refine ⟨?_, fun hall => ?_, rfl, rfl⟩
  · show (R.filter (printPred flag)).map recordString = _
    rw [List.filter_congr (fun r _ => hpred r)]
    rfl
  · show (R.filter (printPred flag)).map recordString = R.map recordString
    have : R.filter (printPred flag) = R := by
      rw [List.filter_eq_self]
      intro r _
      rw [hpred r]
      simp only [decide_eq_true_eq]
      exact Or.inl hall
    rw [this]

/-- Witness for C9 at a concrete flag and record list: the A record is
printed, the AAAA record is not, via the claim theorem. -/
theorem doPrintRecords_lines_spec_witness :
    (doPrintRecords "a,txt"
      [⟨"1", "www.example.com", "A", "1.2.3.4", "600", "0", ""⟩,
       ⟨"2", "www.example.com", "AAAA", "2001:db8::1", "600", "0", ""⟩]).lines =
      ["www.example.com A 1.2.3.4 600 0 (1)"] := by
  rw [(doPrintRecords_lines_spec "a,txt"
    [⟨"1", "www.example.com", "A", "1.2.3.4", "600", "0", ""⟩,
     ⟨"2", "www.example.com", "AAAA", "2001:db8::1", "600", "0", ""⟩]).1]
  rfl

/-- C10: the record-listing mode returns the complete retrieved record
list; the `-print` filter value restricts only the printed lines, so the
snapshot handed to the update decision procedure is the full set. -/
theorem doPrintRecords_returns_unfiltered (flag : String) (R : List Record) :
    (doPrintRecords flag R).returned = R ∧
    ∀ flag2 : String, (doPrintRecords flag R).returned = (doPrintRecords flag2 R).returned :=
  ⟨rfl, fun _ => rfl⟩

/-- Witness for C10: a filter that prints nothing still returns the
record. -/
theorem doPrintRecords_returns_unfiltered_witness :
    (doPrintRecords "CNAME" [⟨"42", "www.example.com", "A", "1.2.3.4", "600", "0", ""⟩]).returned
      = [⟨"42", "www.example.com", "A", "1.2.3.4", "600", "0", ""⟩] :=
  (doPrintRecords_returns_unfiltered "CNAME"
    [⟨"42", "www.example.com", "A", "1.2.3.4", "600", "0", ""⟩]).1

end Porkbun
